import Mathlib

/-!
Verification of the LFT study-aid application's core logic.

The embedding below translates the deterministic business logic of the
repository into Lean: the spaced-repetition scheduler and flashcard data
(`handleSRSUpdate` in src/components/StudySetView.tsx, `addStudySet` in
src/services/firestoreService.ts), the quiz sequencer and grading dispatcher
(`sortedQuestions`, `handleSubmitAnswer`, `startQuiz`, `handleNextQuestion`
in src/components/StudySetView.tsx), and the response-fence cleanup of the
generation client (`cleanJsonString` in src/services/geminiService.ts)
together with the dashboard's submission error handling
(`handleSubmit` in src/components/DashboardView.tsx).

JavaScript numbers are idealized as exact rationals (the arithmetic in the
scheduler is plain +, *, max over small decimal constants); dates are
idealized as integer day counts; JavaScript strings are idealized as lists
of characters.  React state updates are modeled as explicit state passing,
and a thrown / rejected promise inside an async handler is modeled by
returning the state as of the last update performed before the throw.
-/

namespace LFT

/-! ### Data model: SRS (src/types.ts, SRSData) -/

/-- The difficulty rating a user gives a reviewed flashcard
(the four buttons of the study modal in StudySetView.tsx). -/
inductive Rating where
  | again
  | hard
  | good
  | easy
deriving DecidableEq

/-- The pair of mutable numeric fields of `SRSData` updated by the switch
statement inside `handleSRSUpdate` (interval in days, ease factor). -/
structure SRSCore where
  interval : ℚ
  easeFactor : ℚ
deriving DecidableEq

/-- Full `SRSData` record of src/types.ts: interval (days), ease factor and
the next review date (idealized as an integer day index). -/
structure SRSData where
  interval : ℚ
  easeFactor : ℚ
  nextReviewDate : ℤ
deriving DecidableEq

/-- The switch statement of `handleSRSUpdate`
(src/components/StudySetView.tsx lines 127-132):

* `again`: `interval = 1; easeFactor = Math.max(1.3, easeFactor - 0.2)`
* `hard` : `interval = Math.max(1, interval * 0.8); easeFactor = Math.max(1.3, easeFactor - 0.15)`
* `good` : `interval *= easeFactor`
* `easy` : `interval *= easeFactor * 1.3; easeFactor += 0.15`
-/
def srsUpdateCore (c : SRSCore) (difficulty : Rating) : SRSCore :=
  match difficulty with
  | Rating.again => { interval := 1, easeFactor := max (13/10) (c.easeFactor - 2/10) }
  | Rating.hard  => { interval := max 1 (c.interval * (8/10)),
                      easeFactor := max (13/10) (c.easeFactor - 15/100) }
  | Rating.good  => { interval := c.interval * c.easeFactor,
                      easeFactor := c.easeFactor }
  | Rating.easy  => { interval := c.interval * (c.easeFactor * (13/10)),
                      easeFactor := c.easeFactor + 15/100 }

/-- JavaScript `Math.round`: nearest integer, halves toward positive
infinity. -/
def jsRound (q : ℚ) : ℤ := Int.floor (q + 1/2)

/-- The whole of `handleSRSUpdate` on a card's `srsData`
(src/components/StudySetView.tsx lines 123-137): apply the rating switch,
then `nextReviewDate.setDate(getDate() + Math.round(interval))`, i.e. the
current date plus the rounded new interval, in days. -/
def handleSRSUpdate (srs : SRSData) (difficulty : Rating) (today : ℤ) : SRSData :=
  let c := srsUpdateCore { interval := srs.interval, easeFactor := srs.easeFactor } difficulty
  { interval := c.interval, easeFactor := c.easeFactor,
    nextReviewDate := today + jsRound c.interval }

end LFT

namespace LFT

/-! ### Claim C1: the scheduler policy table -/

/-- Claim C1: for every SRSData (interval `i`, ease `e`) and every rating,
`handleSRSUpdate`'s switch returns exactly the policy-table values:
`again` gives interval 1 and ease `max 1.3 (e - 0.2)`; `hard` gives
`max 1 (i * 0.8)` and `max 1.3 (e - 0.15)`; `good` gives `i * e` with the
ease unchanged; `easy` gives `i * e * 1.3` (old ease) and `e + 0.15`.
In particular interval 1 / ease 2.5 rated `good` yields 2.5 / 2.5, and
interval 2.5 / ease 2.5 rated `easy` yields 8.125 / 2.65. -/
theorem srs_policy_table :
    (∀ i e : ℚ,
      srsUpdateCore ⟨i, e⟩ Rating.again = ⟨1, max (13/10) (e - 2/10)⟩ ∧
      srsUpdateCore ⟨i, e⟩ Rating.hard = ⟨max 1 (i * (8/10)), max (13/10) (e - 15/100)⟩ ∧
      srsUpdateCore ⟨i, e⟩ Rating.good = ⟨i * e, e⟩ ∧
      srsUpdateCore ⟨i, e⟩ Rating.easy = ⟨i * e * (13/10), e + 15/100⟩) ∧
    srsUpdateCore ⟨1, 5/2⟩ Rating.good = ⟨5/2, 5/2⟩ ∧
    srsUpdateCore ⟨5/2, 5/2⟩ Rating.easy = ⟨65/8, 53/20⟩ := by
  refine ⟨fun i e => ⟨rfl, rfl, rfl, ?_⟩, by norm_num [srsUpdateCore], by norm_num [srsUpdateCore]⟩
  simp [srsUpdateCore, mul_assoc]

/-! ### Claim C2: the ease-factor / interval invariants -/

/-- Claim C2, counterexample: the invariants do not hold unconditionally
over all SRSData.  Rating `good` on interval 1/2, ease 3/2 yields interval
3/4 < 1, and rating `easy` on ease 1 yields ease 1.15 < 1.3. -/
theorem srs_invariant_unconditional_cex :
    (srsUpdateCore ⟨1/2, 3/2⟩ Rating.good).interval < 1 ∧
    (srsUpdateCore ⟨1, 1⟩ Rating.easy).easeFactor < 13/10 := by
  norm_num [srsUpdateCore]

/-- Claim C2, amended: for every SRSData whose interval is at least 1 and
whose ease factor is at least 1.3 (as established at creation, see C10),
every rating's update keeps ease factor at least 1.3 and interval at
least 1: the scheduler preserves the invariants. -/
theorem srs_invariant_preserved (c : SRSCore) (d : Rating)
    (hi : 1 ≤ c.interval) (he : 13/10 ≤ c.easeFactor) :
    1 ≤ (srsUpdateCore c d).interval ∧ 13/10 ≤ (srsUpdateCore c d).easeFactor := by
  cases d with
  | again =>
    constructor
    · simp [srsUpdateCore]
    · exact le_max_left _ _
  | hard =>
    constructor
    · exact le_max_left _ _
    · exact le_max_left _ _
  | good =>
    constructor
    · have h1 : (1 : ℚ) ≤ c.easeFactor := le_trans (by norm_num) he
      calc (1 : ℚ) = 1 * 1 := by norm_num
        _ ≤ c.interval * c.easeFactor :=
          mul_le_mul hi h1 (by norm_num) (le_trans (by norm_num) hi)
    · exact he
  | easy =>
    constructor
    · have h1 : (1 : ℚ) ≤ c.easeFactor * (13/10) := by nlinarith
      calc (1 : ℚ) = 1 * 1 := by norm_num
        _ ≤ c.interval * (c.easeFactor * (13/10)) :=
          mul_le_mul hi h1 (by norm_num) (le_trans (by norm_num) hi)
    · show (13/10 : ℚ) ≤ c.easeFactor + 15/100
      linarith

/-- Witness for `srs_invariant_preserved` at interval 1, ease 2.5,
rating `good`. -/
theorem srs_invariant_preserved_witness :
    1 ≤ (srsUpdateCore ⟨1, 5/2⟩ Rating.good).interval ∧
    13/10 ≤ (srsUpdateCore ⟨1, 5/2⟩ Rating.good).easeFactor :=
  srs_invariant_preserved ⟨1, 5/2⟩ Rating.good (by norm_num) (by norm_num)

/-! ### Data model: quiz questions (src/types.ts) -/

/-- Bloom's-taxonomy levels, in the declaration order of the `BloomLevel`
enum in src/types.ts. -/
inductive BloomLevel where
  | Remember
  | Understand
  | Apply
  | Analyze
  | Evaluate
  | Create
deriving DecidableEq, BEq

/-- `Object.values(BloomLevel)`: the enum's values in declaration order
(src/components/StudySetView.tsx line 190). -/
def bloomOrder : List BloomLevel :=
  [BloomLevel.Remember, BloomLevel.Understand, BloomLevel.Apply,
   BloomLevel.Analyze, BloomLevel.Evaluate, BloomLevel.Create]

/-- `bloomOrder.indexOf(level)`, the quantity compared by the sort
comparator of `sortedQuestions`. -/
def bloomIndex (b : BloomLevel) : Nat := List.indexOf b bloomOrder

/-- The `QuestionType` enum of src/types.ts. -/
inductive QuestionType where
  | mcq
  | open_ended
deriving DecidableEq, BEq

/-- A stored `PracticeQuestion` (src/types.ts).  The optional `options`
field is stored as a plain list: `addStudySet` always writes
`q.options || []`. -/
structure PracticeQuestion where
  id : String
  studySetId : String
  bloomLevel : BloomLevel
  questionType : QuestionType
  questionText : String
  options : List String
  correctAnswer : String
  aiGradingRubric : String
deriving DecidableEq

/-- The ordering induced by the comparator
`(a, b) => bloomOrder.indexOf(a.bloomLevel) - bloomOrder.indexOf(b.bloomLevel)`:
`a` sorts no later than `b` when the comparator is nonpositive. -/
def qRel (a b : PracticeQuestion) : Prop :=
  bloomIndex a.bloomLevel ≤ bloomIndex b.bloomLevel

instance : DecidableRel qRel :=
  fun a b => inferInstanceAs (Decidable (bloomIndex a.bloomLevel ≤ bloomIndex b.bloomLevel))

instance : IsTotal PracticeQuestion qRel :=
  ⟨fun a b => Nat.le_total (bloomIndex a.bloomLevel) (bloomIndex b.bloomLevel)⟩

instance : IsTrans PracticeQuestion qRel :=
  ⟨fun _ _ _ => Nat.le_trans⟩

/-- `sortedQuestions` (src/components/StudySetView.tsx lines 189-192):
`[...questions].sort((a,b) => bloomOrder.indexOf(a.bloomLevel) - bloomOrder.indexOf(b.bloomLevel))`.
ECMAScript's `Array.prototype.sort` is specified to be stable, and a stable
sort by a total preorder has a unique result, embedded here as insertion
sort by `qRel`. -/
def sortedQuestions (questions : List PracticeQuestion) : List PracticeQuestion :=
  List.insertionSort qRel questions

/-- Inserting a question of the filtered level puts it in front of the
filtered sublist: elements skipped by `orderedInsert` have a strictly
smaller Bloom index, hence a different level. -/
theorem filter_orderedInsert_pos (lvl : BloomLevel) (a : PracticeQuestion)
    (ha : a.bloomLevel = lvl) :
    ∀ l : List PracticeQuestion,
      (List.orderedInsert qRel a l).filter (fun q => decide (q.bloomLevel = lvl))
        = a :: l.filter (fun q => decide (q.bloomLevel = lvl))
  | [] => by simp [ha]
  | b :: t => by
    by_cases hr : qRel a b
    · simp [List.orderedInsert, hr, ha]
    · have hb : ¬ b.bloomLevel = lvl := by
        intro hbl
        apply hr
        show bloomIndex a.bloomLevel ≤ bloomIndex b.bloomLevel
        rw [ha, hbl]
      simp [List.orderedInsert, hr, hb, filter_orderedInsert_pos lvl a ha t]

/-- Inserting a question of another level does not disturb the filtered
sublist. -/
theorem filter_orderedInsert_neg (lvl : BloomLevel) (a : PracticeQuestion)
    (ha : ¬ a.bloomLevel = lvl) :
    ∀ l : List PracticeQuestion,
      (List.orderedInsert qRel a l).filter (fun q => decide (q.bloomLevel = lvl))
        = l.filter (fun q => decide (q.bloomLevel = lvl))
  | [] => by simp [ha]
  | b :: t => by
    by_cases hr : qRel a b
    · simp [List.orderedInsert, hr, ha]
    · simp [List.orderedInsert, hr, List.filter_cons,
            filter_orderedInsert_neg lvl a ha t]

/-- Stability of the quiz sort: for every Bloom level, the questions of
that level appear in the sorted output in their input order. -/
theorem filter_insertionSort_bloom (lvl : BloomLevel) :
    ∀ l : List PracticeQuestion,
      (List.insertionSort qRel l).filter (fun q => decide (q.bloomLevel = lvl))
        = l.filter (fun q => decide (q.bloomLevel = lvl))
  | [] => rfl
  | a :: t => by
    show (List.orderedInsert qRel a (List.insertionSort qRel t)).filter _ = _
    by_cases ha : a.bloomLevel = lvl
    · rw [filter_orderedInsert_pos lvl a ha, filter_insertionSort_bloom lvl t]
      simp [List.filter_cons, ha]
    · rw [filter_orderedInsert_neg lvl a ha, filter_insertionSort_bloom lvl t]
      simp [List.filter_cons, ha]

/-- Example questions for the sorting scenario. -/
def qApplyEx : PracticeQuestion :=
  { id := "qa", studySetId := "s", bloomLevel := BloomLevel.Apply,
    questionType := QuestionType.mcq, questionText := "apply",
    options := [], correctAnswer := "", aiGradingRubric := "" }

def qRememberEx : PracticeQuestion :=
  { id := "qr", studySetId := "s", bloomLevel := BloomLevel.Remember,
    questionType := QuestionType.mcq, questionText := "remember",
    options := [], correctAnswer := "", aiGradingRubric := "" }

def qAnalyzeEx : PracticeQuestion :=
  { id := "qn", studySetId := "s", bloomLevel := BloomLevel.Analyze,
    questionType := QuestionType.mcq, questionText := "analyze",
    options := [], correctAnswer := "", aiGradingRubric := "" }

/-- Claim C3: the quiz sequencer sorts by Bloom rank (the fixed sequence
Remember, Understand, Apply, Analyze, Evaluate, Create), keeps the input
relative order of questions of equal level (stable sort), is deterministic
(equal inputs give equal outputs), and sorts levels
[Apply, Remember, Analyze] to [Remember, Apply, Analyze]. -/
theorem quiz_order_bloom :
    (∀ qs : List PracticeQuestion, (sortedQuestions qs).Sorted qRel) ∧
    (∀ (qs : List PracticeQuestion) (lvl : BloomLevel),
      (sortedQuestions qs).filter (fun q => decide (q.bloomLevel = lvl))
        = qs.filter (fun q => decide (q.bloomLevel = lvl))) ∧
    (∀ qs₁ qs₂ : List PracticeQuestion, qs₁ = qs₂ →
      sortedQuestions qs₁ = sortedQuestions qs₂) ∧
    sortedQuestions [qApplyEx, qRememberEx, qAnalyzeEx]
      = [qRememberEx, qApplyEx, qAnalyzeEx] := by
  refine ⟨fun qs => List.sorted_insertionSort qRel qs,
          fun qs lvl => filter_insertionSort_bloom lvl qs,
          fun qs₁ qs₂ h => by rw [h], ?_⟩
  decide

/-- Witness for `quiz_order_bloom`: the determinism clause at a concrete
one-element quiz. -/
theorem quiz_order_bloom_witness :
    sortedQuestions [qRememberEx] = sortedQuestions [qRememberEx] :=
  quiz_order_bloom.2.2.1 [qRememberEx] [qRememberEx] rfl

/-! ### Claim C6: next review date -/

/-- Claim C6: for every SRSData, rating and current date, the updated
record's `nextReviewDate` is the current date plus `Math.round` of the
updated interval, and the computation is deterministic: equal inputs give
equal outputs (the function consults no random source). -/
theorem srs_next_review_date :
    (∀ (srs : SRSData) (d : Rating) (today : ℤ),
      (handleSRSUpdate srs d today).nextReviewDate
        = today + jsRound ((handleSRSUpdate srs d today).interval)) ∧
    (∀ (s₁ s₂ : SRSData) (d₁ d₂ : Rating) (t₁ t₂ : ℤ),
      s₁ = s₂ → d₁ = d₂ → t₁ = t₂ →
      handleSRSUpdate s₁ d₁ t₁ = handleSRSUpdate s₂ d₂ t₂) := by
  constructor
  · intro srs d today
    rfl
  · intro s₁ s₂ d₁ d₂ t₁ t₂ hs hd ht
    rw [hs, hd, ht]

/-- Witness for `srs_next_review_date` at interval 1, ease 2.5 rated
`good` on day 0: the next review date is day 3 (round of 2.5). -/
theorem srs_next_review_date_witness :
    (handleSRSUpdate ⟨1, 5/2, 0⟩ Rating.good 0).nextReviewDate
      = 0 + jsRound ((handleSRSUpdate ⟨1, 5/2, 0⟩ Rating.good 0).interval) ∧
    handleSRSUpdate ⟨1, 5/2, 0⟩ Rating.good 0 = handleSRSUpdate ⟨1, 5/2, 0⟩ Rating.good 0 :=
  ⟨srs_next_review_date.1 ⟨1, 5/2, 0⟩ Rating.good 0,
   srs_next_review_date.2 ⟨1, 5/2, 0⟩ ⟨1, 5/2, 0⟩ Rating.good Rating.good 0 0 rfl rfl rfl⟩

/-! ### Grading dispatcher and quiz session (QuizTab in StudySetView.tsx) -/

/-- The feedback record set by `handleSubmitAnswer`:
`{ correct: bool, text: string }`. -/
structure Feedback where
  correct : Bool
  text : String
deriving DecidableEq

/-- The verdict returned by the external rubric-grading collaborator
(`gradeOpenEndedQuestion` in src/services/geminiService.ts). -/
structure GradeResult where
  is_correct : Bool
  feedback_text : String
deriving DecidableEq

/-- The MCQ branch of `handleSubmitAnswer`
(src/components/StudySetView.tsx lines 216-219):
`isCorrect = userAnswer === currentQuestion.correctAnswer`, feedback text
either the affirmation or the template revealing the correct answer. -/
def evaluateMCQ (q : PracticeQuestion) (userAnswer : String) : Feedback :=
  let isCorrect := userAnswer == q.correctAnswer
  { correct := isCorrect,
    text := if isCorrect then "Correct!"
            else "The correct answer is " ++ q.correctAnswer }

/-- The three phases of the quiz session
(`useState<'idle' | 'active' | 'finished'>`). -/
inductive QuizPhase where
  | idle
  | active
  | finished
deriving DecidableEq

/-- The React state of `QuizTab`, passed explicitly. -/
structure QuizState where
  phase : QuizPhase
  currentQuestionIndex : Nat
  score : Nat
  userAnswer : String
  feedback : Option Feedback
  isSubmitting : Bool
deriving DecidableEq

/-- `handleSubmitAnswer` (src/components/StudySetView.tsx lines 214-226).
The grading collaborator's outcome is passed explicitly: `Except.ok` is a
returned verdict, `Except.error` a rejected promise.  The source has no
try/catch, so on a rejection the async handler stops right after
`setIsSubmitting(true)`: none of the score, feedback or
`setIsSubmitting(false)` updates run, which the `Except.error` branch
models by returning the state as of that point. -/
def handleSubmitAnswer (q : PracticeQuestion) (s : QuizState)
    (grade : Except String GradeResult) : QuizState :=
  let s1 := { s with isSubmitting := true }
  match q.questionType with
  | QuestionType.mcq =>
      let fb := evaluateMCQ q s1.userAnswer
      let s2 := if fb.correct then { s1 with score := s1.score + 1 } else s1
      { s2 with feedback := some fb, isSubmitting := false }
  | QuestionType.open_ended =>
      match grade with
      | Except.ok r =>
          let s2 := if r.is_correct then { s1 with score := s1.score + 1 } else s1
          { s2 with feedback := some { correct := r.is_correct, text := r.feedback_text },
                    isSubmitting := false }
      | Except.error _ => s1

/-- `startQuiz` (src/components/StudySetView.tsx lines 196-202). -/
def startQuiz (s : QuizState) : QuizState :=
  { s with phase := QuizPhase.active, currentQuestionIndex := 0, score := 0,
           feedback := none, userAnswer := "" }

/-- `handleNextQuestion` (src/components/StudySetView.tsx lines 204-212),
with `n` the length of `sortedQuestions`. -/
def handleNextQuestion (n : Nat) (s : QuizState) : QuizState :=
  if s.currentQuestionIndex < n - 1 then
    { s with currentQuestionIndex := s.currentQuestionIndex + 1,
             feedback := none, userAnswer := "" }
  else
    { s with phase := QuizPhase.finished }

/-- Whether a submission is judged correct: the MCQ comparison for
closed-form questions, the collaborator's verdict for open-form ones. -/
def submitVerdict (q : PracticeQuestion) (ans : String) (g : GradeResult) : Bool :=
  match q.questionType with
  | QuestionType.mcq => (evaluateMCQ q ans).correct
  | QuestionType.open_ended => g.is_correct

/-- `submitVerdict` of one step of a quiz run (question, typed answer,
collaborator verdict). -/
def stepCorrect (p : PracticeQuestion × String × GradeResult) : Bool :=
  submitVerdict p.1 p.2.1 p.2.2

/-- One user interaction of an active session: type an answer, submit it
(with a successfully returned grading outcome), press Next. -/
def quizAnswerStep (n : Nat) (s : QuizState)
    (p : PracticeQuestion × String × GradeResult) : QuizState :=
  handleNextQuestion n (handleSubmitAnswer p.1 { s with userAnswer := p.2.1 } (Except.ok p.2.2))

/-- A whole session: fold `quizAnswerStep` over the per-question steps. -/
def runQuiz (n : Nat) (s : QuizState)
    (steps : List (PracticeQuestion × String × GradeResult)) : QuizState :=
  steps.foldl (quizAnswerStep n) s

/-! ### Claim C4: closed-form grading -/

/-- Claim C4: for every MCQ question and user answer, the evaluation is
correct exactly when the answer equals `correctAnswer` under exact string
equality (equal answer gives true, any other string gives false), and the
feedback is either the affirmation or reveals the correct option
verbatim. -/
theorem mcq_grading_exact :
    ∀ (q : PracticeQuestion) (a : String),
      ((evaluateMCQ q a).correct = true ↔ a = q.correctAnswer) ∧
      (evaluateMCQ q q.correctAnswer).correct = true ∧
      (a ≠ q.correctAnswer → (evaluateMCQ q a).correct = false) ∧
      ((evaluateMCQ q a).text = "Correct!" ∨
        (evaluateMCQ q a).text = "The correct answer is " ++ q.correctAnswer) := by
  intro q a
  refine ⟨by simp [evaluateMCQ], by simp [evaluateMCQ], fun h => by simp [evaluateMCQ, h], ?_⟩
  by_cases h : a = q.correctAnswer
  · left
    simp [evaluateMCQ, h]
  · right
    simp [evaluateMCQ, h]

/-- A concrete MCQ question with correct answer "A". -/
def qMcqEx : PracticeQuestion :=
  { id := "qm", studySetId := "s", bloomLevel := BloomLevel.Remember,
    questionType := QuestionType.mcq, questionText := "pick",
    options := ["A", "B"], correctAnswer := "A", aiGradingRubric := "" }

/-- Witness for `mcq_grading_exact`: answering "B" against correct answer
"A" grades false, answering "A" grades true. -/
theorem mcq_grading_exact_witness :
    (evaluateMCQ qMcqEx "B").correct = false ∧
    (evaluateMCQ qMcqEx qMcqEx.correctAnswer).correct = true :=
  ⟨(mcq_grading_exact qMcqEx "B").2.2.1 (by decide),
   (mcq_grading_exact qMcqEx "B").2.1⟩

/-! ### Claim C5: collaborator failure during open-form grading -/

/-- A concrete open-form question. -/
def qOpenEx : PracticeQuestion :=
  { id := "qo", studySetId := "s", bloomLevel := BloomLevel.Analyze,
    questionType := QuestionType.open_ended, questionText := "why",
    options := [], correctAnswer := "", aiGradingRubric := "rubric" }

/-- A concrete active-session state about to submit an answer. -/
def sActiveEx : QuizState :=
  { phase := QuizPhase.active, currentQuestionIndex := 0, score := 0,
    userAnswer := "my answer", feedback := none, isSubmitting := false }

/-- Claim C5 is violated by the code: when the rubric-grading collaborator
fails on an open-form submission, `handleSubmitAnswer` (which has no
try/catch) leaves the state exactly as after `setIsSubmitting(true)`:
no feedback message is shown and `isSubmitting` stays true, so the submit
button (disabled while `isSubmitting`) can never be pressed again — the
failure is neither surfaced nor retryable, contradicting the spec's
required recoverable error. -/
theorem grading_failure_unrecoverable :
    handleSubmitAnswer qOpenEx sActiveEx (Except.error "network error")
      = { sActiveEx with isSubmitting := true } ∧
    (handleSubmitAnswer qOpenEx sActiveEx (Except.error "network error")).feedback = none ∧
    (handleSubmitAnswer qOpenEx sActiveEx (Except.error "network error")).isSubmitting = true :=
  ⟨rfl, rfl, rfl⟩

/-! ### Claim C7: the quiz session state machine -/

/-- A successful submission leaves the phase unchanged. -/
theorem handleSubmitAnswer_ok_phase (q : PracticeQuestion) (s : QuizState) (g : GradeResult) :
    (handleSubmitAnswer q s (Except.ok g)).phase = s.phase := by
  cases hq : q.questionType <;> simp [handleSubmitAnswer, hq] <;> split <;> rfl

/-- A successful submission leaves the question index unchanged. -/
theorem handleSubmitAnswer_ok_index (q : PracticeQuestion) (s : QuizState) (g : GradeResult) :
    (handleSubmitAnswer q s (Except.ok g)).currentQuestionIndex = s.currentQuestionIndex := by
  cases hq : q.questionType <;> simp [handleSubmitAnswer, hq] <;> split <;> rfl

/-- A successful submission adds 1 to the score exactly when the verdict
is correct. -/
theorem handleSubmitAnswer_ok_score (q : PracticeQuestion) (s : QuizState) (g : GradeResult) :
    (handleSubmitAnswer q s (Except.ok g)).score
      = s.score + (if submitVerdict q s.userAnswer g then 1 else 0) := by
  cases hq : q.questionType <;>
    simp only [handleSubmitAnswer, submitVerdict, hq] <;> split <;> simp_all

/-- Running an active session through one step per remaining question ends
in the finished phase with the score increased by the number of correct
verdicts. -/
theorem runQuiz_active (n : Nat) :
    ∀ (steps : List (PracticeQuestion × String × GradeResult)) (s : QuizState),
      s.phase = QuizPhase.active →
      s.currentQuestionIndex + steps.length = n →
      steps ≠ [] →
      (runQuiz n s steps).phase = QuizPhase.finished ∧
      (runQuiz n s steps).score = s.score + (steps.filter stepCorrect).length := by
  intro steps
  induction steps with
  | nil =>
    intro s _ _ hne
    exact absurd rfl hne
  | cons p rest ih =>
    intro s hphase hlen _
    have hrun : runQuiz n s (p :: rest) =
        runQuiz n (handleNextQuestion n (handleSubmitAnswer p.1
          { s with userAnswer := p.2.1 } (Except.ok p.2.2))) rest := rfl
    set s1 := handleSubmitAnswer p.1 { s with userAnswer := p.2.1 } (Except.ok p.2.2) with hs1
    have h1phase : s1.phase = QuizPhase.active := by
      rw [hs1, handleSubmitAnswer_ok_phase]
      exact hphase
    have h1idx : s1.currentQuestionIndex = s.currentQuestionIndex := by
      rw [hs1, handleSubmitAnswer_ok_index]
    have h1score : s1.score = s.score + (if stepCorrect p then 1 else 0) := by
      rw [hs1, handleSubmitAnswer_ok_score]
      rfl
    have hfilter : ((p :: rest).filter stepCorrect).length
        = (if stepCorrect p then 1 else 0) + (rest.filter stepCorrect).length := by
      rw [List.filter_cons]
      split <;> simp [Nat.add_comm]
    simp only [List.length_cons] at hlen
    cases rest with
    | nil =>
      simp only [List.length_nil] at hlen
      have hidx : ¬ (s1.currentQuestionIndex < n - 1) := by
        rw [h1idx]
        omega
      have hnext : handleNextQuestion n s1 = { s1 with phase := QuizPhase.finished } := by
        simp [handleNextQuestion, hidx]
      rw [hrun, hnext]
      refine ⟨rfl, ?_⟩
      show s1.score = s.score + ([p].filter stepCorrect).length
      rw [h1score, hfilter]
      simp
    | cons r t =>
      have hidx : s1.currentQuestionIndex < n - 1 := by
        rw [h1idx]
        simp only [List.length_cons] at hlen
        omega
      have hnext : handleNextQuestion n s1 =
          { s1 with currentQuestionIndex := s1.currentQuestionIndex + 1,
                    feedback := none, userAnswer := "" } := by
        simp [handleNextQuestion, hidx]
      have hres := ih { s1 with currentQuestionIndex := s1.currentQuestionIndex + 1,
                                feedback := none, userAnswer := "" }
        (by simpa using h1phase)
        (by simp only [List.length_cons] at hlen ⊢; simp [h1idx]; omega)
        (by simp)
      rw [hrun, hnext]
      refine ⟨hres.1, ?_⟩
      rw [hres.2, hfilter]
      simp only at h1score ⊢
      rw [h1score]
      omega

/-- Claim C7: starting a session (from idle or as a restart from finished)
resets the index to 0, the score to 0 and clears the feedback; advancing
at or past the last question moves an active session to finished; and a
full run from `startQuiz` through every question ends finished with the
final score equal to the number of correctly evaluated questions. -/
theorem quiz_state_machine :
    (∀ s : QuizState,
      (startQuiz s).phase = QuizPhase.active ∧
      (startQuiz s).currentQuestionIndex = 0 ∧
      (startQuiz s).score = 0 ∧
      (startQuiz s).feedback = none) ∧
    (∀ (n : Nat) (s : QuizState),
      n - 1 ≤ s.currentQuestionIndex →
      (handleNextQuestion n s).phase = QuizPhase.finished) ∧
    (∀ (n : Nat) (steps : List (PracticeQuestion × String × GradeResult)) (s : QuizState),
      steps.length = n → steps ≠ [] →
      (runQuiz n (startQuiz s) steps).phase = QuizPhase.finished ∧
      (runQuiz n (startQuiz s) steps).score = (steps.filter stepCorrect).length) := by
  refine ⟨fun s => ⟨rfl, rfl, rfl, rfl⟩, ?_, ?_⟩
  · intro n s hle
    have h : ¬ (s.currentQuestionIndex < n - 1) := by omega
    simp [handleNextQuestion, h]
  · intro n steps s hlen hne
    have h := runQuiz_active n steps (startQuiz s) rfl (by simp [startQuiz, hlen]) hne
    refine ⟨h.1, ?_⟩
    rw [h.2]
    show 0 + (steps.filter stepCorrect).length = _
    omega

/-- A concrete idle state. -/
def sIdleEx : QuizState :=
  { phase := QuizPhase.idle, currentQuestionIndex := 0, score := 0,
    userAnswer := "", feedback := none, isSubmitting := false }

/-- A concrete quiz step: the MCQ question answered correctly. -/
def stepEx : PracticeQuestion × String × GradeResult :=
  (qMcqEx, "A", { is_correct := true, feedback_text := "" })

/-- Witness for `quiz_state_machine`: a one-question session answered
correctly finishes with score 1 of 1. -/
theorem quiz_state_machine_witness :
    (runQuiz 1 (startQuiz sIdleEx) [stepEx]).phase = QuizPhase.finished ∧
    (runQuiz 1 (startQuiz sIdleEx) [stepEx]).score = ([stepEx].filter stepCorrect).length :=
  quiz_state_machine.2.2 1 [stepEx] sIdleEx rfl (by simp)

/-! ### Persistence: addStudySet (src/services/firestoreService.ts) -/

/-- The recursive outline tree of src/types.ts. -/
inductive OutlineNode where
  | mk (topic : String) (details : List String) (children : List OutlineNode)

/-- A keyword of the generation payload (`keywords[]` items). -/
structure GenKeyword where
  text : String
  definition : String
  source_sentence : String
  ai_importance_score : ℚ
deriving DecidableEq

/-- A flashcard of the generation payload (`flashcards[]` items). -/
structure GenFlashcard where
  front_text : String
  back_text : String
deriving DecidableEq

/-- A practice question of the generation payload
(`practice_questions[]` items); `options` may be absent (null). -/
structure GenQuestion where
  bloom_level : BloomLevel
  question_type : QuestionType
  question_text : String
  options : Option (List String)
  correct_answer : String
  ai_grading_rubric : String
deriving DecidableEq

/-- The generation payload consumed by `addStudySet`
(the schema of `processSourceMaterial`). -/
structure GenPayload where
  title : String
  summary_text : String
  hierarchical_outline : OutlineNode
  keywords : List GenKeyword
  flashcards : List GenFlashcard
  practice_questions : List GenQuestion

/-- A stored `StudySet` document (src/types.ts). -/
structure StudySet where
  userId : String
  title : String
  summaryText : String
  hierarchicalOutline : OutlineNode
  createdAt : ℤ

/-- A stored `Keyword` document (src/types.ts). -/
structure Keyword where
  studySetId : String
  text : String
  definition : String
  sourceSentence : String
  aiImportanceScore : ℚ
  userImportanceScores : List (String × ℚ)
deriving DecidableEq

/-- A stored `Flashcard` document (src/types.ts). -/
structure Flashcard where
  studySetId : String
  frontText : String
  backText : String
  isUserEdited : Bool
  srsData : SRSData
deriving DecidableEq

/-- The batch written by one `addStudySet` call. -/
structure StudySetBatch where
  studySet : StudySet
  keywords : List Keyword
  flashcards : List Flashcard
  questions : List PracticeQuestion

/-- `addStudySet` (src/services/firestoreService.ts lines 44-107): writes
the study set plus its child keywords, flashcards and practice questions
as one batch.  Document ids are generated by the store; `studySetId`
stands for the generated parent id (children are stored without their own
id field, modeled as `""`), `now` for `Timestamp.now()`.  Each flashcard
is initialized with `isUserEdited: false` and
`srsData: { interval: 1, easeFactor: 2.5, nextReviewDate: Timestamp.now() }`;
each question stores `options: q.options || []` with no validation. -/
def addStudySet (userId : String) (data : GenPayload) (studySetId : String)
    (now : ℤ) : StudySetBatch :=
  { studySet := { userId := userId, title := data.title,
                  summaryText := data.summary_text,
                  hierarchicalOutline := data.hierarchical_outline,
                  createdAt := now },
    keywords := data.keywords.map (fun k =>
      { studySetId := studySetId, text := k.text, definition := k.definition,
        sourceSentence := k.source_sentence,
        aiImportanceScore := k.ai_importance_score,
        userImportanceScores := [] }),
    flashcards := data.flashcards.map (fun f =>
      { studySetId := studySetId, frontText := f.front_text,
        backText := f.back_text, isUserEdited := false,
        srsData := { interval := 1, easeFactor := 5/2, nextReviewDate := now } }),
    questions := data.practice_questions.map (fun q =>
      { id := "", studySetId := studySetId, bloomLevel := q.bloom_level,
        questionType := q.question_type, questionText := q.question_text,
        options := q.options.getD [], correctAnswer := q.correct_answer,
        aiGradingRubric := q.ai_grading_rubric }) }

/-! ### Claim C8: closed-form questions carry their correct answer -/

/-- A generated MCQ question carrying no options list. -/
def badGenQ : GenQuestion :=
  { bloom_level := BloomLevel.Remember, question_type := QuestionType.mcq,
    question_text := "Q", options := none, correct_answer := "A",
    ai_grading_rubric := "" }

/-- A generation payload whose single MCQ question has no options list. -/
def badGenPayload : GenPayload :=
  { title := "T", summary_text := "S",
    hierarchical_outline := OutlineNode.mk "root" [] [],
    keywords := [], flashcards := [],
    practice_questions := [badGenQ] }

/-- Claim C8, counterexample: `addStudySet` performs no validation, so a
generation payload whose MCQ question carries a null options list is
stored with `options = []`, which is empty and does not contain the
correct answer "A". -/
theorem stored_mcq_options_cex :
    ¬ (∀ q ∈ (addStudySet "u" badGenPayload "set1" 0).questions,
        q.questionType = QuestionType.mcq →
        q.options ≠ [] ∧ q.correctAnswer ∈ q.options) := by
  decide

/-- Claim C8, amended: `addStudySet` preserves, but does not establish,
the invariant: if every closed-form question of the generation payload
carries a non-empty options list (after the `q.options || []` default)
containing its correct answer, then so does every stored closed-form
question. -/
theorem stored_mcq_options_preserved (userId sid : String) (p : GenPayload) (now : ℤ)
    (h : ∀ g ∈ p.practice_questions, g.question_type = QuestionType.mcq →
          g.options.getD [] ≠ [] ∧ g.correct_answer ∈ g.options.getD []) :
    ∀ q ∈ (addStudySet userId p sid now).questions,
      q.questionType = QuestionType.mcq →
      q.options ≠ [] ∧ q.correctAnswer ∈ q.options := by
  intro q hq hmcq
  simp only [addStudySet, List.mem_map] at hq
  obtain ⟨g, hg, rfl⟩ := hq
  exact h g hg hmcq

/-- A well-formed generated MCQ question. -/
def goodGenQ : GenQuestion :=
  { bloom_level := BloomLevel.Remember, question_type := QuestionType.mcq,
    question_text := "Q", options := some ["A", "B"], correct_answer := "A",
    ai_grading_rubric := "" }

/-- A generation payload whose single MCQ question is well-formed. -/
def goodGenPayload : GenPayload :=
  { title := "T", summary_text := "S",
    hierarchical_outline := OutlineNode.mk "root" [] [],
    keywords := [], flashcards := [],
    practice_questions := [goodGenQ] }

/-- The stored question `addStudySet` writes for `goodGenPayload`. -/
def goodStoredQ : PracticeQuestion :=
  { id := "", studySetId := "set1", bloomLevel := BloomLevel.Remember,
    questionType := QuestionType.mcq, questionText := "Q",
    options := ["A", "B"], correctAnswer := "A", aiGradingRubric := "" }

/-- Witness for `stored_mcq_options_preserved` on a well-formed payload. -/
theorem stored_mcq_options_preserved_witness :
    goodStoredQ.options ≠ [] ∧ goodStoredQ.correctAnswer ∈ goodStoredQ.options :=
  stored_mcq_options_preserved "u" "set1" goodGenPayload 0 (by decide)
    goodStoredQ
    (by
      have h : (addStudySet "u" goodGenPayload "set1" 0).questions = [goodStoredQ] := rfl
      rw [h]
      exact List.mem_singleton.mpr rfl)
    rfl

/-! ### Claim C10: flashcard initialization -/

/-- Claim C10: every flashcard written by `addStudySet` from a generation
payload is initialized with `isUserEdited = false` and
`srsData = { interval: 1, easeFactor: 2.5, nextReviewDate: creation time }`,
so the ease-factor and interval invariants already hold at creation. -/
theorem flashcard_initialization (userId sid : String) (p : GenPayload) (now : ℤ) :
    ∀ f ∈ (addStudySet userId p sid now).flashcards,
      f.isUserEdited = false ∧
      f.srsData = { interval := 1, easeFactor := 5/2, nextReviewDate := now } ∧
      13/10 ≤ f.srsData.easeFactor ∧ 1 ≤ f.srsData.interval := by
  intro f hf
  simp only [addStudySet, List.mem_map] at hf
  obtain ⟨g, hg, rfl⟩ := hf
  exact ⟨rfl, rfl, by norm_num, by norm_num⟩

/-- A generation payload with a single flashcard. -/
def flashPayloadEx : GenPayload :=
  { title := "T", summary_text := "S",
    hierarchical_outline := OutlineNode.mk "root" [] [],
    keywords := [],
    flashcards := [{ front_text := "f", back_text := "b" }],
    practice_questions := [] }

/-- The stored flashcard `addStudySet` writes for `flashPayloadEx` at
creation time 0. -/
def flashEx : Flashcard :=
  { studySetId := "set1", frontText := "f", backText := "b",
    isUserEdited := false,
    srsData := { interval := 1, easeFactor := 5/2, nextReviewDate := 0 } }

/-- Witness for `flashcard_initialization` on `flashPayloadEx`. -/
theorem flashcard_initialization_witness :
    flashEx.isUserEdited = false ∧
    flashEx.srsData = { interval := 1, easeFactor := 5/2, nextReviewDate := (0 : ℤ) } ∧
    (13/10 : ℚ) ≤ flashEx.srsData.easeFactor ∧ (1 : ℚ) ≤ flashEx.srsData.interval :=
  flashcard_initialization "u" "set1" flashPayloadEx 0 flashEx
    (by
      have h : (addStudySet "u" flashPayloadEx "set1" 0).flashcards = [flashEx] := rfl
      rw [h]
      exact List.mem_singleton.mpr rfl)

/-! ### Claim C9: fence unwrapping (src/services/geminiService.ts) and
generation-failure handling (src/components/DashboardView.tsx) -/

/-- The whitespace characters stripped by JavaScript's `String.trim`
(the ASCII ones; strings are idealized as lists of characters). -/
def jsWhitespaceChar (c : Char) : Bool :=
  c == ' ' || c == '\t' || c == '\n' || c == '\r' || c == '\x0b' || c == '\x0c'

/-- JavaScript `text.trim()`: drop whitespace from both ends. -/
def jsTrim (s : List Char) : List Char :=
  ((s.dropWhile jsWhitespaceChar).reverse.dropWhile jsWhitespaceChar).reverse

/-- The opening markdown fence checked by `startsWith`. -/
def openFence : List Char := "```json".toList

/-- The closing markdown fence checked by `endsWith`. -/
def closeFence : List Char := "```".toList

/-- `cleanJsonString` (src/unnamed/part_000 lines 15-24, inlined at
src/services/geminiService.ts lines 116-123): trim, then drop a leading
"```json" fence (`substring(7)`), then drop a trailing "```" fence
(`substring(0, length - 3)`). -/
def cleanJsonString (text : List Char) : List Char :=
  let jsonText := jsTrim text
  let jsonText2 := if openFence.isPrefixOf jsonText then jsonText.drop 7 else jsonText
  let jsonText3 := if closeFence.isSuffixOf jsonText2 then
    jsonText2.take (jsonText2.length - 3) else jsonText2
  jsonText3

/-- `dropWhile` never lengthens a list. -/
theorem length_dropWhile_le_aux (p : Char → Bool) :
    ∀ l : List Char, (l.dropWhile p).length ≤ l.length
  | [] => Nat.le_refl _
  | a :: l => by
    rw [List.dropWhile_cons]
    split
    · exact Nat.le_succ_of_le (length_dropWhile_le_aux p l)
    · exact Nat.le_refl _

/-- A list that `dropWhile` leaves unchanged still prefixes-protects any
extension: its head already fails the predicate. -/
theorem dropWhile_append_eq (p : Char → Bool) (f x : List Char)
    (hf : f.dropWhile p = f) (hne : f ≠ []) :
    (f ++ x).dropWhile p = f ++ x := by
  cases f with
  | nil => exact absurd rfl hne
  | cons c cs =>
    by_cases h : p c
    · exfalso
      rw [List.dropWhile_cons_of_pos h] at hf
      have hlen := congrArg List.length hf
      have hle := length_dropWhile_le_aux p cs
      simp only [List.length_cons] at hlen
      omega
    · rw [List.cons_append, List.dropWhile_cons_of_neg h]

/-- Trimming a fenced response is the identity: it starts and ends with a
backtick, not whitespace. -/
theorem jsTrim_fenced (p : List Char) :
    jsTrim (openFence ++ (p ++ closeFence)) = openFence ++ (p ++ closeFence) := by
  unfold jsTrim
  rw [dropWhile_append_eq _ _ _ (by decide) (by decide)]
  have hrev : (openFence ++ (p ++ closeFence)).reverse
      = closeFence.reverse ++ (p.reverse ++ openFence.reverse) := by
    simp [List.reverse_append, List.append_assoc]
  rw [hrev, dropWhile_append_eq _ _ _ (by decide) (by decide), ← hrev,
    List.reverse_reverse]

/-- The dashboard modal's React state relevant to submission failures. -/
structure DashboardState where
  error : Option String
  isLoading : Bool
deriving DecidableEq

/-- The inline error message set by the catch block. -/
def genFailureMessage : String :=
  "Failed to create study set. The AI model may be overloaded. Please try again."

/-- `handleSubmit` of `AddNewSourceModal`
(src/components/DashboardView.tsx lines 22-48): clear the error, set
loading, run generation plus persistence inside try/catch, set the inline
error message on any thrown error, and always clear loading.  The
generation outcome (including a JSON parse failure inside
`processSourceMaterial`) is passed explicitly as an `Except`. -/
def handleSubmit (st : DashboardState) (result : Except String GenPayload) : DashboardState :=
  let st1 : DashboardState := { st with error := none, isLoading := true }
  match result with
  | Except.ok _ => { st1 with isLoading := false }
  | Except.error _ => { st1 with error := some genFailureMessage, isLoading := false }

/-- Claim C9: a payload wrapped in a leading "```json" fence and a
trailing "```" fence is returned exactly by `cleanJsonString` (so a valid
wrapped JSON payload parses successfully), and a generation failure —
including a parse failure — is caught by the dashboard's submit handler
and surfaced as the inline error message rather than an uncaught crash
(the handler is a total function of the outcome). -/
theorem fence_unwrap_and_gen_failure :
    (∀ p : List Char, cleanJsonString (openFence ++ (p ++ closeFence)) = p) ∧
    (∀ (st : DashboardState) (e : String),
      (handleSubmit st (Except.error e)).error = some genFailureMessage ∧
      (handleSubmit st (Except.error e)).isLoading = false) := by
  constructor
  · intro p
    simp only [cleanJsonString]
    rw [jsTrim_fenced]
    have hpre : openFence.isPrefixOf (openFence ++ (p ++ closeFence)) = true := by
      rw [ List.isPrefixOf_iff_prefix]
      exact List.prefix_append _ _
    rw [if_pos hpre, List.drop_left' (by decide)]
    have hsuf : closeFence.isSuffixOf (p ++ closeFence) = true := by
      rw [ List.isSuffixOf_iff_suffix]
      exact List.suffix_append _ _
    rw [if_pos hsuf]
    have hlen : (p ++ closeFence).length - 3 = p.length := by
      have h3 : closeFence.length = 3 := rfl
      simp only [List.length_append, h3]
      omega
    rw [hlen, List.take_left' rfl]
  · intro st e
    exact ⟨rfl, rfl⟩

end LFT
